import Mathlib

/-! Shallow embedding of the per-connection engine of
whiterabb17/gopher-socket (file `loop.go`): the `Channel` session state,
`closeChannel`, one iteration of the reader loop (`inLoop`), one iteration
of the writer loop (`outLoop`), and one tick of the keepalive `pinger`.
Side effects are recorded as an action trace in program order, and a
separate interpreter `applyActions` gives the resulting session state. -/

namespace GopherSocket

/-- Frames on the wire and in the outbound queue are Go strings. -/
abbrev Frame := String

/-- Modelled from the spec: the sentinel in-process value of the codec collaborator,
namely `protocol.CloseMessage` (the `protocol` package is not under src/);
engine.io packet-type string, only its distinctness from the other
sentinels matters here. -/
def CloseMessage : Frame := "1"

/-- Modelled from the spec: `protocol.PingMessage`. -/
def PingMessage : Frame := "2"

/-- Modelled from the spec: `protocol.PongMessage`. -/
def PongMessage : Frame := "3"

/-- Go `error` values reachable in `loop.go`.  `transportErr n` stands for
an opaque error produced by the transport collaborator (read or write). -/
inductive GoError where
  | errorWrongHeader
  | errorWrongPacket
  | errorSocketOverflood
  | transportErr (n : Nat)
  deriving DecidableEq

/-- The engine.io handshake header of `loop.go` (`type Header struct`). -/
structure Header where
  Sid : String
  Upgrades : List String
  PingInterval : Int
  PingTimeout : Int
  deriving DecidableEq

/-- The Go zero value of `Header`: the state of `c.header` before any
handshake has been applied. -/
def emptyHeader : Header := { Sid := "", Upgrades := [], PingInterval := 0, PingTimeout := 0 }

/-- Modelled from the spec: the event names `OnConnection` and
`OnDisconnection` passed to `m.callLoopEvent` are defined outside src/;
only their distinctness matters. -/
def OnConnection : String := "connection"

/-- Modelled from the spec: the `OnDisconnection` event name. -/
def OnDisconnection : String := "disconnection"

/-- `const queueBufferSize = 10000` in `loop.go`: the capacity of the
outbound queue `c.out`. -/
def queueBufferSize : Nat := 10000

/-- The session state of `Channel` in `loop.go`, with the transport handle
and the process-wide structures projected onto this one session:
`connClosed` records whether `c.conn.Close()` has run, and `inOverflow`
whether this channel is currently a key of the global `overflooded` map.
The buffered Go channel `c.out` is a FIFO list whose head is the next
element to be dequeued. -/
structure Channel where
  alive : Bool
  out : List Frame
  header : Header
  connClosed : Bool
  inOverflow : Bool
  deriving DecidableEq

/-- One primitive side effect of the engine, recorded in program order.
`loopEventArgs ev args` is `m.callLoopEvent(c, ev)` together with the
extra arguments actually handed over (none in the source); `dispatch`
is the fire-and-forget `go m.processIncomingMessage(c, msg)`. -/
inductive Action where
  | connClose
  | setAlive (b : Bool)
  | dequeue (f : Frame)
  | enqueue (f : Frame)
  | write (f : Frame)
  | setHeader (h : Header)
  | loopEventArgs (event : String) (args : List GoError)
  | dispatch (code : Nat) (src : String)
  | registryStore
  | registryDelete
  deriving DecidableEq

/-- State effect of a single action on the session. -/
def applyAction (s : Channel) (a : Action) : Channel :=
  match a with
  | .connClose => { s with connClosed := true }
  | .setAlive b => { s with alive := b }
  | .dequeue _ => { s with out := s.out.tail }
  | .enqueue f => { s with out := s.out ++ [f] }
  | .write _ => s
  | .setHeader h => { s with header := h }
  | .loopEventArgs _ _ => s
  | .dispatch _ _ => s
  | .registryStore => { s with inOverflow := true }
  | .registryDelete => { s with inOverflow := false }

/-- State effect of a trace of actions, applied left to right. -/
def applyActions (s : Channel) (l : List Action) : Channel :=
  l.foldl applyAction s

/-- `closeChannel(c, m, args...)` from `loop.go`, as a trace of effects and
the returned Go error.  When the channel is alive it closes the transport,
clears the liveness flag, drains the queue one element at a time
(`for len(c.out) > 0 { <-c.out }`), pushes `protocol.CloseMessage`,
fires the `OnDisconnection` loop event (without forwarding `args`, exactly
as `m.callLoopEvent(c, OnDisconnection)` does), and deletes the channel
from the overflow registry; it always returns `nil`.  The `cause`
argument is ignored by the source just as `args ...interface\x7b\x7d` is. -/
def closeChannel (s : Channel) (_cause : GoError) : List Action × Option GoError :=
  if s.alive then
    ([Action.connClose, Action.setAlive false]
        ++ s.out.map Action.dequeue
        ++ [Action.enqueue CloseMessage,
            Action.loopEventArgs OnDisconnection [],
            Action.registryDelete], none)
  else ([], none)

/-- The teardown trace as the specification words it for `Close(cause)`:
liveness cleared before the transport close, and the disconnect
notification carrying `cause`.  This definition follows the spec text and
exists to be compared against `closeChannel`, which follows the source. -/
def closeSpecTrace (s : Channel) (cause : GoError) : List Action :=
  [Action.setAlive false, Action.connClose]
    ++ s.out.map Action.dequeue
    ++ [Action.enqueue CloseMessage,
        Action.loopEventArgs OnDisconnection [cause],
        Action.registryDelete]

/-- The decoded message types dispatched on in `inLoop`: `protocol` is not
under src/, so beyond Open/Ping/Pong (the cases `inLoop` names) every other
type is collapsed into `mtOther code`, the `default` branch of the switch. -/
inductive MessageType where
  | mtOpen
  | mtPing
  | mtPong
  | mtOther (code : Nat)
  deriving DecidableEq

/-- What one blocking read of the reader loop produced:
a transport read error (`c.conn.GetMessage` failed), a decode error
(`protocol.Decode` failed, carrying the error it returned), or a decoded
message with its type and raw source text. -/
inductive ReadResult where
  | readErr (e : GoError)
  | decodeErr (e : GoError)
  | msg (mtype : MessageType) (source : String)
  deriving DecidableEq

/-- Whether an iteration of a loop returned (with the given Go error,
`none` being the Go `nil`) or fell through to the next iteration. -/
inductive InStep where
  | ret (e : Option GoError)
  | cont
  deriving DecidableEq

/-- One iteration of `inLoop` from `loop.go`, given the result of the
blocking read.  `um` is the Go `json.Unmarshal` specialised to `Header`: it
receives the payload bytes and the current header value (the target of the
pointer `&c.header`) and returns the header value after the call together
with the returned error.  The result is `none` when the iteration panics:
for an Open message, `msg.Source[1:]` is out of range exactly when
`len(msg.Source) = 0`.  The stripped framing byte is ASCII, so the
character-level `String.drop 1` matches the Go byte slice. -/
def inLoopIter (um : String → Header → Header × Option GoError)
    (s : Channel) (r : ReadResult) : Option (List Action × InStep) :=
  match r with
  | .readErr e =>
      let c := closeChannel s e
      some (c.1, .ret c.2)
  | .decodeErr e =>
      let c := closeChannel s GoError.errorWrongPacket
      some (c.1, .ret (some e))
  | .msg t src =>
      match t with
      | .mtOpen =>
          if src.length = 0 then none
          else
            let p := um (src.drop 1) s.header
            let tr := [Action.setHeader p.1]
            let tr := match p.2 with
              | some _ =>
                  tr ++ (closeChannel (applyActions s tr) GoError.errorWrongHeader).1
              | none => tr
            some (tr ++ [Action.loopEventArgs OnConnection []], .cont)
      | .mtPing => some ([Action.enqueue PongMessage], .cont)
      | .mtPong => some ([], .cont)
      | .mtOther code => some ([Action.dispatch code src], .cont)

/-- Whether an iteration of `outLoop` returned, fell through, or blocked
forever on `<-c.out` with an empty queue and no producer. -/
inductive OutStep where
  | ret (e : Option GoError)
  | cont
  | blocked
  deriving DecidableEq

/-- One iteration of `outLoop` from `loop.go`.  `send` is the transport
collaborator function `c.conn.WriteMessage`.  The depth check against
`queueBufferSize-1` and the overflow-registry bookkeeping happen before
the blocking dequeue, exactly as in the source. -/
def outLoopIter (send : Frame → Option GoError) (s : Channel) :
    List Action × OutStep :=
  let outBufferLen := s.out.length
  if outBufferLen ≥ queueBufferSize - 1 then
    let c := closeChannel s GoError.errorSocketOverflood
    (c.1, .ret c.2)
  else
    let pre : List Action :=
      if outBufferLen > queueBufferSize / 2 then [Action.registryStore]
      else [Action.registryDelete]
    match s.out with
    | [] => (pre, .blocked)
    | msg :: _ =>
      let tr := pre ++ [Action.dequeue msg]
      if msg = CloseMessage then (tr, .ret none)
      else
        match send msg with
        | none => (tr ++ [Action.write msg], .cont)
        | some e =>
            let c := closeChannel (applyActions s tr) e
            (tr ++ [Action.write msg] ++ c.1, .ret c.2)

/-- One tick of `pinger` from `loop.go`: after `<-ticker.C`, return if the
channel is no longer alive, otherwise enqueue `protocol.PingMessage`.
The boolean tells whether the pinger keeps ticking. -/
def pingerTick (s : Channel) : List Action × Bool :=
  if !s.alive then ([], false)
  else ([Action.enqueue PingMessage], true)

/-- The sequence of session states the reader loop passes through when fed
the given read results one iteration at a time, starting from `s`
(inclusive).  The sequence stops after a returning iteration, and is cut
short at a panicking one. -/
def runStates (um : String → Header → Header × Option GoError)
    (s : Channel) : List ReadResult → List Channel
  | [] => [s]
  | r :: rest =>
      s :: (match inLoopIter um s r with
        | none => []
        | some (tr, InStep.ret _) => [applyActions s tr]
        | some (tr, InStep.cont) => runStates um (applyActions s tr) rest)

/-- Modelled from the spec: the outcome delivered to an ack waiter —
the `ackProcessor` implementation is not under src/ (only the `ack` field
of `Channel` is), so the contract of §4.5 is modelled here.  A waiter receives
either a reply payload or a timeout error. -/
inductive AckOutcome where
  | payload (p : String)
  | timedOut
  deriving DecidableEq

/-- Modelled from the spec: the two racing resolution paths for a pending
correlation id — a matching inbound reply delivered by the reader loop, or
the deadline expiring. -/
inductive AckEvent where
  | reply (id : Nat) (p : String)
  | expire (id : Nat)
  deriving DecidableEq

/-- The correlation id an event acts on. -/
def AckEvent.targets : AckEvent → Nat
  | .reply id _ => id
  | .expire id => id

/-- Modelled from the spec: the waiter table of the ack correlator.  `pending`
holds the currently registered correlation ids; `resolutions` is the
append-only log of results actually delivered to waiting callers. -/
structure AckState where
  pending : List Nat
  resolutions : List (Nat × AckOutcome)
  deriving DecidableEq

/-- Modelled from the spec: one table operation under the mutual exclusion
of the table — a resolution attempt removes the waiter and delivers exactly
one result if the id is still pending, and is a no-op otherwise. -/
def ackStep (t : AckState) (e : AckEvent) : AckState :=
  match e with
  | .reply id p =>
      if id ∈ t.pending then
        { pending := t.pending.erase id,
          resolutions := t.resolutions ++ [(id, AckOutcome.payload p)] }
      else t
  | .expire id =>
      if id ∈ t.pending then
        { pending := t.pending.erase id,
          resolutions := t.resolutions ++ [(id, AckOutcome.timedOut)] }
      else t

/-- A serialised history of resolution attempts applied to the table. -/
def ackRun (t : AckState) : List AckEvent → AckState
  | [] => t
  | e :: rest => ackRun (ackStep t e) rest

/-- How many results have been delivered for the given correlation id. -/
def resCount (t : AckState) (id : Nat) : Nat :=
  (t.resolutions.filter (fun r => r.1 = id)).length

/-- A run of reader-loop states in which the header, once it differs from
the Go zero value, never changes again ("set at most once"). -/
def headerFrozen (l : List Channel) : Prop :=
  ∀ (i j : Nat) (hi : i < l.length) (hj : j < l.length), i ≤ j →
    (l.get ⟨i, hi⟩).header ≠ emptyHeader →
    (l.get ⟨j, hj⟩).header = (l.get ⟨i, hi⟩).header

/-- A live channel with two queued frames, used as a concrete test state. -/
def sAliveEx : Channel :=
  { alive := true, out := ["a", "b"], header := emptyHeader,
    connClosed := false, inOverflow := true }

/-- A freshly initialised channel (`initChannel`): empty queue, alive. -/
def sFresh : Channel :=
  { alive := true, out := [], header := emptyHeader,
    connClosed := false, inOverflow := false }

/-- A channel whose liveness flag has already been cleared. -/
def sDeadEx : Channel :=
  { alive := false, out := ["a"], header := emptyHeader,
    connClosed := true, inOverflow := false }

/-- An unmarshal behaviour that always succeeds without touching the
target: used where the header parse is irrelevant to the claim. -/
def umId : String → Header → Header × Option GoError := fun _ h => (h, none)

/-- A handshake payload whose JSON names session id "abc". -/
def openPayloadA : String :=
  "\x7b\"sid\":\"abc\",\"upgrades\":[],\"pingInterval\":25000,\"pingTimeout\":5000\x7d"

/-- A handshake payload whose JSON names session id "xyz". -/
def openPayloadB : String :=
  "\x7b\"sid\":\"xyz\",\"upgrades\":[],\"pingInterval\":25000,\"pingTimeout\":5000\x7d"

/-- The header encoding/json produces for `openPayloadA`. -/
def headerA : Header :=
  { Sid := "abc", Upgrades := [], PingInterval := 25000, PingTimeout := 5000 }

/-- The header encoding/json produces for `openPayloadB`. -/
def headerB : Header :=
  { Sid := "xyz", Upgrades := [], PingInterval := 25000, PingTimeout := 5000 }

/-- An unmarshal behaviour agreeing with the Go `json.Unmarshal` on the two
well-formed payloads above (full atomic write, nil error) and failing on
everything else while leaving the target untouched. -/
def jsonHeaderStub (payload : String) (h : Header) : Header × Option GoError :=
  if payload = openPayloadA then (headerA, none)
  else if payload = openPayloadB then (headerB, none)
  else (h, some GoError.errorWrongHeader)

theorem closeChannel_snd (s : Channel) (c : GoError) :
    (closeChannel s c).2 = none := by
  unfold closeChannel; split <;> rfl

theorem closeChannel_no_write (s : Channel) (c : GoError) (f : Frame) :
    Action.write f ∉ (closeChannel s c).1 := by
  unfold closeChannel
  split
  · simp
  · simp

theorem closeChannel_no_setHeader (s : Channel) (c : GoError) (hd : Header) :
    Action.setHeader hd ∉ (closeChannel s c).1 := by
  unfold closeChannel
  split
  · simp
  · simp

theorem applyActions_append (s : Channel) (l1 l2 : List Action) :
    applyActions s (l1 ++ l2) = applyActions (applyActions s l1) l2 := by
  simp [applyActions, List.foldl_append]

theorem applyActions_map_dequeue (l : List Frame) :
    ∀ s : Channel,
      applyActions s (l.map Action.dequeue) = { s with out := s.out.drop l.length } := by
  induction l with
  | nil => intro s; simp [applyActions]
  | cons a l ih =>
      intro s
      have step : applyActions s ((a :: l).map Action.dequeue)
          = applyActions { s with out := s.out.tail } (l.map Action.dequeue) := rfl
      rw [step, ih]
      simp [List.tail_drop]

theorem applyActions_header_of_no_set (l : List Action)
    (hl : ∀ hd : Header, Action.setHeader hd ∉ l) :
    ∀ s : Channel, (applyActions s l).header = s.header := by
  induction l with
  | nil => intro s; rfl
  | cons a l ih =>
      intro s
      have ha : ∀ hd : Header, a ≠ Action.setHeader hd := by
        intro hd h
        exact hl hd (by simp [h])
      have hl2 : ∀ hd : Header, Action.setHeader hd ∉ l := by
        intro hd h
        exact hl hd (by simp [h])
      have step : applyActions s (a :: l) = applyActions (applyAction s a) l := rfl
      rw [step, ih hl2]
      cases a with
      | setHeader hd => exact absurd rfl (ha hd)
      | connClose => rfl
      | setAlive b => rfl
      | dequeue f => rfl
      | enqueue f => rfl
      | write f => rfl
      | loopEventArgs e g => rfl
      | dispatch c p => rfl
      | registryStore => rfl
      | registryDelete => rfl

/-- Claim C1 counterexample: on a live channel, `closeChannel` does not
perform the teardown in the shape the claim states — the source closes the
transport before clearing liveness and fires the disconnect notification
without the cause, so its effect trace differs from `closeSpecTrace`. -/
theorem close_order_counterexample :
    sAliveEx.alive = true ∧
    closeChannel sAliveEx (GoError.transportErr 0)
      ≠ (closeSpecTrace sAliveEx (GoError.transportErr 0), none) := by
  decide

/-- Claim C1 (amended): on a live channel, `Close(cause)` closes the
transport handle, then clears the liveness flag, discards every queued
frame, pushes the single terminal sentinel (the queue afterwards holds
exactly the sentinel), fires the disconnect notification without
forwarding the cause, and removes the session from the overflow registry
— the transport close preceding the liveness clear. -/
theorem close_teardown_effects :
    ∀ (s : Channel) (cause : GoError), s.alive = true →
      closeChannel s cause
        = ([Action.connClose, Action.setAlive false]
            ++ s.out.map Action.dequeue
            ++ [Action.enqueue CloseMessage,
                Action.loopEventArgs OnDisconnection [],
                Action.registryDelete], none)
      ∧ applyActions s (closeChannel s cause).1
          = { alive := false, out := [CloseMessage], header := s.header,
              connClosed := true, inOverflow := false } := by
  intro s cause h
  have h1 : closeChannel s cause
      = ([Action.connClose, Action.setAlive false]
          ++ s.out.map Action.dequeue
          ++ [Action.enqueue CloseMessage,
              Action.loopEventArgs OnDisconnection [],
              Action.registryDelete], none) := by
    simp [closeChannel, h]
  refine ⟨h1, ?_⟩
  rw [h1]
  rw [applyActions_append, applyActions_append]
  have e1 : applyActions s [Action.connClose, Action.setAlive false]
      = { s with connClosed := true, alive := false } := rfl
  rw [e1, applyActions_map_dequeue]
  simp [applyActions, applyAction, List.drop_length]

/-- Claim C1 amended, witnessed on a concrete live channel. -/
theorem close_teardown_effects_witness :
    sAliveEx.alive = true ∧
    applyActions sAliveEx (closeChannel sAliveEx (GoError.transportErr 0)).1
      = { alive := false, out := [CloseMessage], header := sAliveEx.header,
          connClosed := true, inOverflow := false } :=
  ⟨rfl, (close_teardown_effects sAliveEx (GoError.transportErr 0) rfl).2⟩

/-- Claim C2: on a channel whose liveness flag is already false,
`closeChannel` returns success (`nil`) with an empty effect trace — no
transport close, no queue change, no sentinel, no notification, no
registry change — and `closeChannel` returns `nil` in every case. -/
theorem close_idempotent_always_nil :
    ∀ (s : Channel) (cause : GoError), s.alive = false →
      closeChannel s cause = ([], none)
      ∧ ∀ (s2 : Channel) (c2 : GoError), (closeChannel s2 c2).2 = none := by
  intro s cause h
  constructor
  · simp [closeChannel, h]
  · intro s2 c2
    exact closeChannel_snd s2 c2

/-- Claim C2, witnessed on a concrete already-closed channel. -/
theorem close_idempotent_always_nil_witness :
    sDeadEx.alive = false ∧
    closeChannel sDeadEx (GoError.transportErr 1) = ([], none) :=
  ⟨rfl, (close_idempotent_always_nil sDeadEx (GoError.transportErr 1) rfl).1⟩

/-- Claim C4 counterexample: on a transport read error the iteration of the
reader loop does not return the error — at this concrete live channel it
returns `nil`, not `some (transportErr 0)` as the claim requires. -/
theorem read_error_counterexample :
    ¬ (inLoopIter umId sAliveEx (ReadResult.readErr (GoError.transportErr 0))
        = some ((closeChannel sAliveEx (GoError.transportErr 0)).1,
                InStep.ret (some (GoError.transportErr 0)))) := by
  decide

/-- Claim C4 (amended): on a transport read error the reader loop performs
exactly the effects of `Close(error)` and terminates, but its return value
is `nil` (success) — `return closeChannel(c, m, err)` returns the result
of `closeChannel`, which is always `nil`, so the read error is not
propagated through the return value of the loop. -/
theorem read_error_closes_returns_nil :
    ∀ (um : String → Header → Header × Option GoError) (s : Channel) (e : GoError),
      inLoopIter um s (ReadResult.readErr e)
        = some ((closeChannel s e).1, InStep.ret none) := by
  intro um s e
  have h : inLoopIter um s (ReadResult.readErr e)
      = some ((closeChannel s e).1, InStep.ret (closeChannel s e).2) := rfl
  rw [h, closeChannel_snd]

/-- Claim C8: an inbound Ping makes the reader loop enqueue exactly one
pong frame and nothing else (liveness, header and registry membership are
untouched), and an inbound Pong is a strict no-op. -/
theorem ping_pong_frame_effects :
    ∀ (um : String → Header → Header × Option GoError) (s : Channel) (src : String),
      inLoopIter um s (ReadResult.msg MessageType.mtPing src)
        = some ([Action.enqueue PongMessage], InStep.cont)
      ∧ inLoopIter um s (ReadResult.msg MessageType.mtPong src)
        = some ([], InStep.cont)
      ∧ applyActions s [Action.enqueue PongMessage] = { s with out := s.out ++ [PongMessage] }
      ∧ applyActions s [] = s :=
  fun _ _ _ => ⟨rfl, rfl, rfl, rfl⟩

/-- Claim C9: a keepalive tick on a dead channel enqueues nothing and
stops the timer; on a live channel it enqueues exactly one ping frame and
keeps ticking. -/
theorem pinger_tick_policy :
    ∀ s : Channel,
      pingerTick s = if s.alive then ([Action.enqueue PingMessage], true)
                     else ([], false) := by
  intro s
  cases h : s.alive <;> simp [pingerTick, h]

/-- Claim C10: handling an Open frame is not total — with an empty source
the one-byte strip `msg.Source[1:]` is out of range and the iteration
panics (modelled as `none`), while any nonempty source reaches the header
parse and completes. -/
theorem open_strip_needs_nonempty_source :
    (∀ (um : String → Header → Header × Option GoError) (s : Channel),
        inLoopIter um s (ReadResult.msg MessageType.mtOpen "") = none)
    ∧ (∀ (um : String → Header → Header × Option GoError) (s : Channel) (src : String),
        src.length ≠ 0 →
        (inLoopIter um s (ReadResult.msg MessageType.mtOpen src)).isSome = true) := by
  constructor
  · intro um s
    rfl
  · intro um s src h
    simp only [inLoopIter]
    rw [if_neg h]
    cases h2 : (um (src.drop 1) s.header).2 <;> simp [h2]

/-- Claim C10, witnessed on a concrete nonempty Open source. -/
theorem open_strip_needs_nonempty_source_witness :
    ("0A" : String).length ≠ 0 ∧
    (inLoopIter umId sFresh (ReadResult.msg MessageType.mtOpen "0A")).isSome = true :=
  ⟨by decide, open_strip_needs_nonempty_source.2 umId sFresh "0A" (by decide)⟩

/-- A transport whose writes always succeed. -/
def sendOk : Frame → Option GoError := fun _ => none

/-- A live channel whose queue depth is at the fail-fast threshold. -/
def sBig : Channel :=
  { alive := true, out := List.replicate 9999 "m", header := emptyHeader,
    connClosed := false, inOverflow := false }

/-- A live channel whose queue depth is in the soft-overflow band. -/
def sMid : Channel :=
  { alive := true, out := List.replicate 5001 "m", header := emptyHeader,
    connClosed := false, inOverflow := false }

/-- A live channel whose queue depth is at most half the capacity. -/
def sLow : Channel :=
  { alive := true, out := ["m"], header := emptyHeader,
    connClosed := false, inOverflow := true }

/-- A live channel whose queue holds exactly the terminal sentinel. -/
def sSentinel : Channel :=
  { alive := true, out := [CloseMessage], header := emptyHeader,
    connClosed := false, inOverflow := false }

/-- Claim C3: one writer-loop iteration at observed depth `d` against
capacity `C = queueBufferSize`: at `d ≥ C-1` it performs exactly the
effects of `Close(overflowError)` and returns without writing anything; at
`C/2 < d < C-1` its first action registers the session in the overflow
registry; at `d ≤ C/2` its first action removes it; the dequeue happens
only after that bookkeeping, and a dequeued terminal sentinel makes the
loop return success without a transport write. -/
theorem outLoop_backpressure_policy :
    ∀ (send : Frame → Option GoError) (s : Channel),
      (s.out.length ≥ queueBufferSize - 1 →
        outLoopIter send s
          = ((closeChannel s GoError.errorSocketOverflood).1, OutStep.ret none)
        ∧ ∀ f : Frame, Action.write f ∉ (outLoopIter send s).1)
      ∧ (queueBufferSize / 2 < s.out.length → s.out.length < queueBufferSize - 1 →
        (outLoopIter send s).1.head? = some Action.registryStore)
      ∧ (s.out.length ≤ queueBufferSize / 2 →
        (outLoopIter send s).1.head? = some Action.registryDelete)
      ∧ (∀ rest : List Frame, s.out = CloseMessage :: rest →
          s.out.length < queueBufferSize - 1 →
          outLoopIter send s
            = ((if queueBufferSize / 2 < s.out.length then [Action.registryStore]
                else [Action.registryDelete]) ++ [Action.dequeue CloseMessage],
               OutStep.ret none)) := by
  intro send s
  refine ⟨?_, ?_, ?_, ?_⟩
  · intro h
    have e : outLoopIter send s
        = ((closeChannel s GoError.errorSocketOverflood).1,
           OutStep.ret (closeChannel s GoError.errorSocketOverflood).2) := by
      simp only [outLoopIter]
      rw [if_pos h]
    constructor
    · rw [e, closeChannel_snd]
    · intro f
      rw [e]
      exact closeChannel_no_write s GoError.errorSocketOverflood f
  · intro h1 h2
    have hn : ¬ (s.out.length ≥ queueBufferSize - 1) := not_le.mpr h2
    simp only [outLoopIter]
    rw [if_neg hn, if_pos h1]
    cases hout : s.out with
    | nil =>
        rw [hout] at h1
        simp [queueBufferSize] at h1
    | cons m rest =>
        dsimp only
        split
        · rfl
        · split <;> rfl
  · intro h
    have hn : ¬ (s.out.length ≥ queueBufferSize - 1) := by
      simp only [queueBufferSize] at h ⊢
      omega
    have hn2 : ¬ (queueBufferSize / 2 < s.out.length) := not_lt.mpr h
    simp only [outLoopIter]
    rw [if_neg hn, if_neg hn2]
    cases hout : s.out with
    | nil => rfl
    | cons m rest =>
        dsimp only
        split
        · rfl
        · split <;> rfl
  · intro rest hout hlt
    have hn : ¬ (s.out.length ≥ queueBufferSize - 1) := not_le.mpr hlt
    simp only [outLoopIter]
    rw [if_neg hn, hout]
    dsimp only
    rw [if_pos rfl]

/-- Claim C3, witnessed at the threshold, soft-overflow band, low band and
sentinel cases on concrete channels. -/
theorem outLoop_backpressure_policy_witness :
    (sBig.out.length ≥ queueBufferSize - 1
      ∧ outLoopIter sendOk sBig
          = ((closeChannel sBig GoError.errorSocketOverflood).1, OutStep.ret none))
    ∧ (queueBufferSize / 2 < sMid.out.length ∧ sMid.out.length < queueBufferSize - 1
      ∧ (outLoopIter sendOk sMid).1.head? = some Action.registryStore)
    ∧ (sLow.out.length ≤ queueBufferSize / 2
      ∧ (outLoopIter sendOk sLow).1.head? = some Action.registryDelete)
    ∧ (sSentinel.out = CloseMessage :: []
      ∧ sSentinel.out.length < queueBufferSize - 1
      ∧ outLoopIter sendOk sSentinel
          = ((if queueBufferSize / 2 < sSentinel.out.length then [Action.registryStore]
              else [Action.registryDelete]) ++ [Action.dequeue CloseMessage],
             OutStep.ret none)) := by
  have hBig : sBig.out.length ≥ queueBufferSize - 1 := by
    simp only [sBig, List.length_replicate, queueBufferSize]
    decide
  have hMid1 : queueBufferSize / 2 < sMid.out.length := by
    simp only [sMid, List.length_replicate, queueBufferSize]
    decide
  have hMid2 : sMid.out.length < queueBufferSize - 1 := by
    simp only [sMid, List.length_replicate, queueBufferSize]
    decide
  have hLow : sLow.out.length ≤ queueBufferSize / 2 := by
    decide
  have hS1 : sSentinel.out = CloseMessage :: [] := rfl
  have hS2 : sSentinel.out.length < queueBufferSize - 1 := by
    decide
  exact ⟨⟨hBig, ((outLoop_backpressure_policy sendOk sBig).1 hBig).1⟩,
    ⟨hMid1, hMid2, (outLoop_backpressure_policy sendOk sMid).2.1 hMid1 hMid2⟩,
    ⟨hLow, (outLoop_backpressure_policy sendOk sLow).2.2.1 hLow⟩,
    ⟨hS1, hS2, (outLoop_backpressure_policy sendOk sSentinel).2.2.2 [] hS1 hS2⟩⟩

/-- Claim C6: an Open frame whose payload fails to parse makes the reader
loop perform the header write attempt, then exactly the effects of
`Close(headerError)`, and still fire the `OnConnection` ("connected")
notification afterwards, continuing the loop. -/
theorem open_parse_failure_still_connects :
    ∀ (um : String → Header → Header × Option GoError) (s : Channel)
      (src : String) (e : GoError),
      src.length ≠ 0 →
      (um (src.drop 1) s.header).2 = some e →
      inLoopIter um s (ReadResult.msg MessageType.mtOpen src)
        = some ([Action.setHeader (um (src.drop 1) s.header).1]
            ++ (closeChannel
                  (applyActions s [Action.setHeader (um (src.drop 1) s.header).1])
                  GoError.errorWrongHeader).1
            ++ [Action.loopEventArgs OnConnection []], InStep.cont) := by
  intro um s src e h1 h2
  simp only [inLoopIter]
  rw [if_neg h1]
  simp only [h2, List.append_assoc]

/-- Claim C6, witnessed on a concrete live channel and failing payload. -/
theorem open_parse_failure_still_connects_witness :
    ("0zz" : String).length ≠ 0 ∧
    (jsonHeaderStub ("0zz".drop 1) sAliveEx.header).2 = some GoError.errorWrongHeader ∧
    inLoopIter jsonHeaderStub sAliveEx (ReadResult.msg MessageType.mtOpen "0zz")
      = some ([Action.setHeader (jsonHeaderStub ("0zz".drop 1) sAliveEx.header).1]
          ++ (closeChannel
                (applyActions sAliveEx
                  [Action.setHeader (jsonHeaderStub ("0zz".drop 1) sAliveEx.header).1])
                GoError.errorWrongHeader).1
          ++ [Action.loopEventArgs OnConnection []], InStep.cont) :=
  ⟨by decide, by decide,
    open_parse_failure_still_connects jsonHeaderStub sAliveEx "0zz"
      GoError.errorWrongHeader (by decide) (by decide)⟩

/-- Claim C5 counterexample: the header is not set at most once — feeding
two well-formed Open frames with different session ids through the reader
loop rewrites an already-set header, so the once-set-frozen reading of the
invariant fails on a concrete run. -/
theorem header_set_once_counterexample :
    ¬ (∀ (um : String → Header → Header × Option GoError) (s0 : Channel)
          (inputs : List ReadResult), s0.header = emptyHeader →
          headerFrozen (runStates um s0 inputs)) := by
  intro hP
  have h := hP jsonHeaderStub sFresh
    [ReadResult.msg MessageType.mtOpen ("0" ++ openPayloadA),
     ReadResult.msg MessageType.mtOpen ("0" ++ openPayloadB)] rfl
  have h2 := h 1 2 (by decide) (by decide) (by decide) (by decide)
  exact absurd h2 (by decide)

/-- Claim C5 (amended): the header record is written only while handling
an Open frame, and there wholesale, as the single value the JSON decoder
returns (so with an atomic decoder it is never partially applied) — but
nothing limits how often it is written: each Open frame overwrites it.
The resulting header of one iteration is the decoder output for an Open
frame and the unchanged previous header for every other input. -/
theorem header_writes_only_on_open :
    ∀ (um : String → Header → Header × Option GoError) (s : Channel)
      (r : ReadResult),
      ((inLoopIter um s r).map (fun p => (applyActions s p.1).header)).getD s.header
        = match r with
          | ReadResult.msg MessageType.mtOpen src =>
              if src.length = 0 then s.header else (um (src.drop 1) s.header).1
          | _ => s.header := by
  intro um s r
  cases r with
  | readErr e =>
      show (applyActions s (closeChannel s e).1).header = s.header
      exact applyActions_header_of_no_set _
        (fun hd => closeChannel_no_setHeader s e hd) s
  | decodeErr e =>
      show (applyActions s (closeChannel s GoError.errorWrongPacket).1).header = s.header
      exact applyActions_header_of_no_set _
        (fun hd => closeChannel_no_setHeader s GoError.errorWrongPacket hd) s
  | msg t src =>
      cases t with
      | mtOpen =>
          by_cases hlen : src.length = 0
          · simp only [inLoopIter, if_pos hlen]
            rfl
          · simp only [inLoopIter, if_neg hlen]
            cases hp : (um (src.drop 1) s.header).2 with
            | none =>
                simp only [hp]
                rfl
            | some e =>
                simp only [hp]
                have hns : ∀ hd : Header, Action.setHeader hd ∉
                    ((closeChannel
                        (applyActions s [Action.setHeader (um (src.drop 1) s.header).1])
                        GoError.errorWrongHeader).1
                      ++ [Action.loopEventArgs OnConnection []]) := by
                  intro hd hmem
                  rcases List.mem_append.mp hmem with hm | hm
                  · exact closeChannel_no_setHeader _ _ hd hm
                  · simp at hm
                show (applyActions s ([Action.setHeader (um (src.drop 1) s.header).1]
                    ++ ((closeChannel
                          (applyActions s [Action.setHeader (um (src.drop 1) s.header).1])
                          GoError.errorWrongHeader).1
                        ++ [Action.loopEventArgs OnConnection []]))).header
                  = (um (src.drop 1) s.header).1
                rw [applyActions_append]
                rw [applyActions_header_of_no_set _ hns _]
                rfl
      | mtPing => rfl
      | mtPong => rfl
      | mtOther code => rfl

theorem resCount_after_resolve (t : AckState) (id id2 : Nat) (o : AckOutcome) :
    resCount ⟨t.pending.erase id2, t.resolutions ++ [(id2, o)]⟩ id
      = resCount t id + (if id2 = id then 1 else 0) := by
  by_cases hid : id2 = id <;> simp [resCount, List.filter_append, hid]

theorem ackStep_resolve (t : AckState) (id2 : Nat) (o : AckOutcome) (e : AckEvent)
    (hm : id2 ∈ t.pending)
    (he : (e = AckEvent.expire id2 ∧ o = AckOutcome.timedOut)
        ∨ ∃ p, e = AckEvent.reply id2 p ∧ o = AckOutcome.payload p) :
    ackStep t e = ⟨t.pending.erase id2, t.resolutions ++ [(id2, o)]⟩ := by
  rcases he with ⟨he, ho⟩ | ⟨p, he, ho⟩ <;> subst he <;> subst ho <;> simp [ackStep, hm]

theorem ackStep_inv (t : AckState) (e : AckEvent) (id : Nat)
    (h : t.pending.count id + resCount t id ≤ 1) :
    (ackStep t e).pending.count id + resCount (ackStep t e) id ≤ 1 := by
  have main : ∀ (id2 : Nat) (o : AckOutcome), id2 ∈ t.pending →
      ackStep t e = ⟨t.pending.erase id2, t.resolutions ++ [(id2, o)]⟩ →
      (ackStep t e).pending.count id + resCount (ackStep t e) id ≤ 1 := by
    intro id2 o hm hstep
    rw [hstep, resCount_after_resolve]
    by_cases hid : id2 = id
    · subst hid
      have hc : 0 < t.pending.count id2 := List.count_pos_iff.mpr hm
      have he2 : (t.pending.erase id2).count id2 = t.pending.count id2 - 1 :=
        List.count_erase_self id2 t.pending
      rw [if_pos rfl]
      show (t.pending.erase id2).count id2 + (resCount t id2 + 1) ≤ 1
      rw [he2]
      omega
    · have he2 : (t.pending.erase id2).count id = t.pending.count id :=
        List.count_erase_of_ne (fun hh => hid hh.symm) t.pending
      show (t.pending.erase id2).count id + (resCount t id + if id2 = id then 1 else 0) ≤ 1
      rw [he2, if_neg hid]
      omega
  cases e with
  | reply id2 p =>
      by_cases hm : id2 ∈ t.pending
      · exact main id2 (AckOutcome.payload p) hm
          (ackStep_resolve t id2 (AckOutcome.payload p) _ hm (Or.inr ⟨p, rfl, rfl⟩))
      · have hstep : ackStep t (AckEvent.reply id2 p) = t := by simp [ackStep, hm]
        rw [hstep]
        exact h
  | expire id2 =>
      by_cases hm : id2 ∈ t.pending
      · exact main id2 AckOutcome.timedOut hm
          (ackStep_resolve t id2 AckOutcome.timedOut _ hm (Or.inl ⟨rfl, rfl⟩))
      · have hstep : ackStep t (AckEvent.expire id2) = t := by simp [ackStep, hm]
        rw [hstep]
        exact h

theorem ackRun_inv (evs : List AckEvent) :
    ∀ (t : AckState) (id : Nat), t.pending.count id + resCount t id ≤ 1 →
      (ackRun t evs).pending.count id + resCount (ackRun t evs) id ≤ 1 := by
  induction evs with
  | nil => intro t id h; exact h
  | cons e rest ih => intro t id h; exact ih (ackStep t e) id (ackStep_inv t e id h)

theorem resCount_ackStep_le (t : AckState) (e : AckEvent) (id : Nat) :
    resCount t id ≤ resCount (ackStep t e) id := by
  cases e with
  | reply id2 p =>
      by_cases hm : id2 ∈ t.pending <;>
        simp [ackStep, hm, resCount, List.filter_append]
  | expire id2 =>
      by_cases hm : id2 ∈ t.pending <;>
        simp [ackStep, hm, resCount, List.filter_append]

theorem resCount_ackRun_le (evs : List AckEvent) :
    ∀ (t : AckState) (id : Nat), resCount t id ≤ resCount (ackRun t evs) id := by
  induction evs with
  | nil => intro t id; exact Nat.le_refl _
  | cons e rest ih =>
      intro t id
      exact Nat.le_trans (resCount_ackStep_le t e id) (ih (ackStep t e) id)

theorem ackRun_resolves (evs : List AckEvent) :
    ∀ (t : AckState) (id : Nat), id ∈ t.pending →
      (∃ e ∈ evs, AckEvent.targets e = id) →
      1 ≤ resCount (ackRun t evs) id := by
  induction evs with
  | nil =>
      intro t id hmem hex
      rcases hex with ⟨e, he, _⟩
      simp at he
  | cons e rest ih =>
      intro t id hmem hex
      by_cases htgt : AckEvent.targets e = id
      · have h1 : 1 ≤ resCount (ackStep t e) id := by
          cases e with
          | reply id2 p =>
              have hid : id2 = id := htgt
              subst hid
              rw [ackStep_resolve t id2 (AckOutcome.payload p) _ hmem
                (Or.inr ⟨p, rfl, rfl⟩), resCount_after_resolve]
              simp
          | expire id2 =>
              have hid : id2 = id := htgt
              subst hid
              rw [ackStep_resolve t id2 AckOutcome.timedOut _ hmem
                (Or.inl ⟨rfl, rfl⟩), resCount_after_resolve]
              simp
        exact Nat.le_trans h1 (resCount_ackRun_le rest (ackStep t e) id)
      · have hmem2 : id ∈ (ackStep t e).pending := by
          cases e with
          | reply id2 p =>
              by_cases hm : id2 ∈ t.pending
              · have hne : id ≠ id2 := fun hh => htgt (by simp [AckEvent.targets, hh])
                simp [ackStep, hm]
                exact (List.mem_erase_of_ne hne).mpr hmem
              · simp [ackStep, hm]
                exact hmem
          | expire id2 =>
              by_cases hm : id2 ∈ t.pending
              · have hne : id ≠ id2 := fun hh => htgt (by simp [AckEvent.targets, hh])
                simp [ackStep, hm]
                exact (List.mem_erase_of_ne hne).mpr hmem
              · simp [ackStep, hm]
                exact hmem
        rcases hex with ⟨e2, he2, ht2⟩
        rcases List.mem_cons.mp he2 with hh | hh
        · subst hh
          exact absurd ht2 htgt
        · exact ih (ackStep t e) id hmem2 ⟨e2, hh, ht2⟩

/-- Claim C7: in the spec-modelled ack correlator, a resolution attempt on
an id with no pending waiter is a strict no-op (late reply after timeout,
timeout after resolution, duplicate reply); starting from a table where an
id has one pending waiter and no delivered result, any serialised history
of reply/expiry attempts delivers at most one result for that id, and
exactly one as soon as the history contains an attempt targeting it. -/
theorem ack_resolved_exactly_once :
    (∀ (t : AckState) (id : Nat) (p : String), id ∉ t.pending →
        ackStep t (AckEvent.reply id p) = t ∧ ackStep t (AckEvent.expire id) = t)
    ∧ (∀ (t : AckState) (id : Nat) (evs : List AckEvent),
        t.pending.count id + resCount t id ≤ 1 →
        resCount (ackRun t evs) id ≤ 1)
    ∧ (∀ (t : AckState) (id : Nat) (evs : List AckEvent),
        id ∈ t.pending → t.pending.count id + resCount t id ≤ 1 →
        (∃ e ∈ evs, AckEvent.targets e = id) →
        resCount (ackRun t evs) id = 1) := by
  refine ⟨?_, ?_, ?_⟩
  · intro t id p h
    constructor <;> simp [ackStep, h]
  · intro t id evs h
    have h2 := ackRun_inv evs t id h
    omega
  · intro t id evs hmem hinv hex
    have hle := ackRun_inv evs t id hinv
    have hge := ackRun_resolves evs t id hmem hex
    omega

/-- Claim C7, witnessed: a reply for an already-resolved id is a no-op,
and a pending waiter hit by an expiry then a late reply resolves once. -/
theorem ack_resolved_exactly_once_witness :
    ackStep ⟨[], [(7, AckOutcome.timedOut)]⟩ (AckEvent.reply 7 "x")
      = ⟨[], [(7, AckOutcome.timedOut)]⟩
    ∧ resCount (ackRun ⟨[7], []⟩ [AckEvent.expire 7, AckEvent.reply 7 "y"]) 7 = 1 :=
  ⟨(ack_resolved_exactly_once.1 ⟨[], [(7, AckOutcome.timedOut)]⟩ 7 "x" (by decide)).1,
   ack_resolved_exactly_once.2.2 ⟨[7], []⟩ 7 [AckEvent.expire 7, AckEvent.reply 7 "y"]
     (by decide) (by decide) ⟨AckEvent.expire 7, by decide, by decide⟩⟩


end GopherSocket
